import Mathlib

/-
  Verification development for a collection of Python GitHub-API client
  wrappers.  Each Python file is shallow-embedded as Lean definitions:
  network traffic is modelled by an oracle (a list of transport outcomes,
  one per session call, or a page-number-indexed fetch function for
  pagination), and the control flow of each Python function is translated
  branch by branch.
-/

/-- JSON values, as produced by `response.json()`. -/
inductive Json where
  | null
  | bool (b : Bool)
  | num (n : Int)
  | str (s : String)
  | arr (elems : List Json)
  | obj (fields : List (String × Json))
  deriving Repr

/-- The payload of an HTTP response: empty (`response.content` falsy),
a decodable JSON document, or non-empty content that `response.json()`
fails to parse (raising `ValueError`). -/
inductive Body where
  | empty
  | json (j : Json)
  | raw (s : String)
  deriving Repr

/-- An HTTP response: status code, body, and the two rate-limit headers the
clients read.  `retryAfter` models `headers.get("Retry-After")` (absent =
`none`); `rateLimitReset` models `int(headers.get("X-RateLimit-Reset", 0))`
(absent = 0). -/
structure HttpResponse where
  status : Nat
  body : Body
  retryAfter : Option Nat := none
  rateLimitReset : Nat := 0
  deriving Repr

/-- Outcome of one `session` call: a response (any status), or a
transport-level failure (`requests.exceptions.ConnectionError`/timeout —
a `RequestException` carrying no response). -/
inductive CallResult where
  | ok (r : HttpResponse)
  | netError
  deriving Repr

/-- A recorded `time.sleep` with the rule that produced its duration:
`hinted` = the integer value of a `Retry-After` header, `backoff` = the
current exponential-backoff delay, `untilReset` = a wait derived from an
`X-RateLimit-Reset` timestamp (`max(reset - time.time(), 0) + 1`, recorded
symbolically since wall-clock time is outside the model). -/
inductive Wait where
  | hinted (seconds : Nat)
  | backoff (seconds : Nat)
  | untilReset (reset : Nat)
  deriving Repr

/-- The observable trace of one logical client call: its final result, how
many network calls it performed, and the sleeps it executed in order. -/
structure Trace (α : Type) where
  result : α
  calls : Nat
  waits : List Wait
  deriving Repr

/-- Python dict lookup `d.get(k)` for a dict modelled as an insertion-ordered
association list with unique keys. -/
def lookupParam (d : List (String × Json)) (k : String) : Option Json :=
  match d with
  | [] => none
  | (k', v) :: rest => if k' = k then some v else lookupParam rest k

/-- Python dict assignment `d[k] = v`: replaces the value at an existing key
in place, otherwise appends the new key at the end. -/
def setParam (d : List (String × Json)) (k : String) (v : Json) :
    List (String × Json) :=
  match d with
  | [] => [(k, v)]
  | (k', v') :: rest =>
      if k' = k then (k, v) :: rest else (k', v') :: setParam rest k v

namespace Advanced
/-
  Embedding of `GitHubAPIClient` / `GitHubStarsClient` from
  Chapter_4/stargazers-advanced.py.
-/

/-- Errors `_make_request` can raise: a re-raised `HTTPError` carrying its
response, a re-raised transport error, the final fall-through
`RequestException("Max retries exceeded...")`, and the `ValueError` for an
unsupported HTTP verb. -/
inductive MRError where
  | httpError (r : HttpResponse)
  | connError
  | maxRetriesExceeded
  | unsupportedMethod
  deriving Repr

/-- Result of `_make_request`: the successful `Response` object, a raised
error, or `oracleEnd` — a model artifact marking that the outcome oracle ran
out while the loop still wanted to make another call (it carries the loop
state at that point: retry counter and current delay). -/
inductive MRResult where
  | success (r : HttpResponse)
  | raised (e : MRError)
  | oracleEnd (retries : Nat) (delay : Nat)
  deriving Repr

/-- The `while retries <= self.max_retries` loop of
`GitHubAPIClient._make_request`, consuming one oracle entry per session
call.  A 429 sleeps `int(headers.get('Retry-After', delay))` and retries
with `retries += 1; delay *= 2`.  Any other 4xx/5xx raises `HTTPError`
via `raise_for_status`, which the `except RequestException` clause retries
with `time.sleep(delay); delay *= 2` until `retries >= max_retries`, at
which point the error is re-raised; a transport failure is handled by the
same clause. -/
def mrLoop (maxRetries : Nat) : Nat → Nat → List CallResult → Trace MRResult
  | retries, delay, [] =>
      if maxRetries < retries then ⟨.raised .maxRetriesExceeded, 0, []⟩
      else ⟨.oracleEnd retries delay, 0, []⟩
  | retries, delay, .ok r :: rest =>
      if maxRetries < retries then ⟨.raised .maxRetriesExceeded, 0, []⟩
      else if r.status = 429 then
        let w := match r.retryAfter with
          | some n => Wait.hinted n
          | none => Wait.backoff delay
        let t := mrLoop maxRetries (retries + 1) (delay * 2) rest
        ⟨t.result, t.calls + 1, w :: t.waits⟩
      else if 400 ≤ r.status ∧ r.status < 600 then
        if maxRetries ≤ retries then ⟨.raised (.httpError r), 1, []⟩
        else
          let t := mrLoop maxRetries (retries + 1) (delay * 2) rest
          ⟨t.result, t.calls + 1, .backoff delay :: t.waits⟩
      else ⟨.success r, 1, []⟩
  | retries, delay, .netError :: rest =>
      if maxRetries < retries then ⟨.raised .maxRetriesExceeded, 0, []⟩
      else if maxRetries ≤ retries then ⟨.raised .connError, 1, []⟩
      else
        let t := mrLoop maxRetries (retries + 1) (delay * 2) rest
        ⟨t.result, t.calls + 1, .backoff delay :: t.waits⟩

/-- ASCII upper-casing of one character, as in Python's `str.upper` on the
method names used here. -/
def upperChar (c : Char) : Char :=
  if c.toNat ≥ 97 ∧ c.toNat ≤ 122 then Char.ofNat (c.toNat - 32) else c

/-- `method.upper()` for the ASCII method strings. -/
def upperString (s : String) : String := ⟨s.data.map upperChar⟩

/-- The HTTP verbs `_make_request` dispatches on; any other method raises
`ValueError` (uncaught, since it is not a `RequestException`). -/
def supportedMethod (method : String) : Bool :=
  ["GET", "POST", "PUT", "PATCH", "DELETE"].contains (upperString method)

/-- `GitHubAPIClient._make_request` (leading underscore dropped): validates
the verb, then runs the retry loop from `retries = 0`, `delay =
self.retry_delay`. -/
def make_request (maxRetries retryDelay : Nat) (method : String)
    (calls : List CallResult) : Trace MRResult :=
  if supportedMethod method then mrLoop maxRetries 0 retryDelay calls
  else ⟨.raised .unsupportedMethod, 0, []⟩

/-- Result of the `get`/`post`/... wrappers, which decode the successful
response with `response.json() if response.content else None`. -/
inductive GetResult where
  | value (v : Option Json)
  | raised (e : MRError)
  | decodeError
  | oracleEnd (retries : Nat) (delay : Nat)
  deriving Repr

/-- `response.json() if response.content else None`; undecodable content
raises `ValueError`, modelled as `Except.error ()`. -/
def decodeContent (r : HttpResponse) : Except Unit (Option Json) :=
  match r.body with
  | .empty => .ok none
  | .json j => .ok (some j)
  | .raw _ => .error ()

/-- `GitHubAPIClient.get`: `_make_request('GET', ...)` then decode. -/
def get (maxRetries retryDelay : Nat) (calls : List CallResult) :
    Trace GetResult :=
  let t := make_request maxRetries retryDelay "GET" calls
  match t.result with
  | .success r =>
      match decodeContent r with
      | .ok v => ⟨.value v, t.calls, t.waits⟩
      | .error _ => ⟨.decodeError, t.calls, t.waits⟩
  | .raised e => ⟨.raised e, t.calls, t.waits⟩
  | .oracleEnd a b => ⟨.oracleEnd a b, t.calls, t.waits⟩

/-- Result of `GitHubStarsClient.check_starred`. -/
inductive StarCheck where
  | value (b : Bool)
  | raised (e : MRError)
  | decodeError
  | oracleEnd (retries : Nat) (delay : Nat)
  deriving Repr

/-- `GitHubStarsClient.check_starred`: `self.api.get(...)` then `True`;
an `HTTPError` with status 404 yields `False`, any other `HTTPError` and
every non-`HTTPError` exception propagates. -/
def check_starred (maxRetries retryDelay : Nat) (calls : List CallResult) :
    Trace StarCheck :=
  let t := get maxRetries retryDelay calls
  match t.result with
  | .value _ => ⟨.value true, t.calls, t.waits⟩
  | .raised (.httpError r) =>
      if r.status = 404 then ⟨.value false, t.calls, t.waits⟩
      else ⟨.raised (.httpError r), t.calls, t.waits⟩
  | .raised e => ⟨.raised e, t.calls, t.waits⟩
  | .decodeError => ⟨.decodeError, t.calls, t.waits⟩
  | .oracleEnd a b => ⟨.oracleEnd a b, t.calls, t.waits⟩

end Advanced

/-- A retryable failure in the sense of the spec's retry policy: a
transport-level failure or a 5xx response. -/
def retryable5xx (c : CallResult) : Bool :=
  match c with
  | .netError => true
  | .ok r => 500 ≤ r.status && r.status < 600

/-- Whether `pat` occurs as a prefix of `s` (character lists). -/
def charsLeadWith : List Char → List Char → Bool
  | [], _ => true
  | _ :: _, [] => false
  | p :: ps, c :: cs => p == c && charsLeadWith ps cs

/-- Whether `pat` occurs contiguously inside `s` (character lists); models
Python's `pat in s` on strings. -/
def charsContain (pat : List Char) : List Char → Bool
  | [] => pat.isEmpty
  | c :: cs => charsLeadWith pat (c :: cs) || charsContain pat cs

/-- The message carried by a surfaced API error: either the `"message"`
field of the decoded error body, or the `str(e)` fallback. -/
inductive ErrMsg where
  | fromServer (j : Json)
  | generic
  deriving Repr

/-- First value bound to key `"message"` in a decoded JSON object. -/
def messageField (fields : List (String × Json)) : Option Json :=
  match fields with
  | [] => none
  | (k, v) :: rest => if k = "message" then some v else messageField rest

namespace Advanced2
/-
  Embedding of `GitHubAPIError` / `GitHubAPIBase` / `GitHubStargazersAPI`
  from Chapter_4/stargazers-advanced2.py.
-/

/-- Errors `_request` can surface: a `GitHubAPIError(status_code, message)`,
the `ValueError` from `response.json()` on an undecodable success body
(uncaught), or an uncaught `TypeError` from the `"message" in error_data`
/ `error_data["message"]` steps when the decoded error body is not a
container / not a dict. -/
inductive ReqError where
  | apiError (status : Nat) (message : ErrMsg)
  | decodeError
  | typeError
  deriving Repr

/-- The exception recorded in `last_error`. -/
inductive LastErr where
  | httpError (r : HttpResponse)
  | connError
  deriving Repr

/-- What `_request` returns on success: decoded JSON, `None` for an empty
body, or the raw content when `raw_response=True`. -/
inductive ReqValue where
  | json (j : Json)
  | nothing
  | raw (b : Body)
  deriving Repr

/-- Result of `_request`; `oracleEnd` is the model artifact for an exhausted
outcome oracle, carrying the loop state (retry counter, `last_error`). -/
inductive ReqResult where
  | success (v : ReqValue)
  | raised (e : ReqError)
  | oracleEnd (retries : Nat) (lastError : Option LastErr)
  deriving Repr

/-- Python's `"message" in error_data` on a decoded JSON value: key test for
dicts, element test for lists, substring test for strings; `none` models the
`TypeError` raised for the remaining types. -/
def msgContains (j : Json) : Option Bool :=
  match j with
  | .obj fields => some (fields.any (fun f => f.1 == "message"))
  | .arr elems =>
      some (elems.any (fun e =>
        match e with
        | .str s => s == "message"
        | _ => false))
  | .str s => some (charsContain "message".data s.data)
  | _ => none

/-- The `error_message` computation shared by `_request`'s fatal-4xx branch
and its post-loop epilogue: start from `str(e)`, then
`error_data = e.response.json()`; `if "message" in error_data:
error_message = error_data["message"]`, with `ValueError`/`KeyError`
swallowed.  `Except.error ()` models the uncaught `TypeError` when
`error_data` is not a container or is indexed with a string. -/
def fatalMsg (r : HttpResponse) : Except Unit ErrMsg :=
  match r.body with
  | .json j =>
      match msgContains j with
      | none => .error ()
      | some false => .ok .generic
      | some true =>
          match j with
          | .obj fields => .ok (.fromServer ((messageField fields).getD .null))
          | _ => .error ()
  | _ => .ok .generic

/-- The exception surfaced for a fatal HTTP error response:
`GitHubAPIError(status_code, error_message)`, or the uncaught `TypeError`
from the message extraction. -/
def fatalError (r : HttpResponse) : ReqError :=
  match fatalMsg r with
  | .ok m => .apiError r.status m
  | .error _ => .typeError

/-- The code after `_request`'s retry loop exits ("all retries failed"):
raise `GitHubAPIError` from `last_error`, with status and decoded message
when `last_error` is an `HTTPError` carrying a response, else the status-0
generic form. -/
def epilogue (lastError : Option LastErr) : Trace ReqResult :=
  match lastError with
  | some (.httpError r) => ⟨.raised (fatalError r), 0, []⟩
  | _ => ⟨.raised (.apiError 0 .generic), 0, []⟩

/-- The `while retries <= self.max_retries` loop of `GitHubAPIBase._request`,
consuming one oracle entry per session call; the `epilogue` runs when the
loop guard fails.  A 429 whose `X-RateLimit-Reset` is positive sleeps until
the reset time and continues WITHOUT touching the retry counter.  Any other
4xx/5xx (including a 429 without the reset hint) raises via
`raise_for_status` into the `except` clause, which increments `retries`,
re-raises immediately as `GitHubAPIError` for a 4xx other than 429, and
otherwise sleeps `retry_delay * 2 ** (retries - 1)` and continues while
`retries <= max_retries`. -/
def reqLoop (maxRetries retryDelay : Nat) (raw : Bool) :
    Nat → Option LastErr → List CallResult → Trace ReqResult
  | retries, lastError, [] =>
      if maxRetries < retries then epilogue lastError
      else ⟨.oracleEnd retries lastError, 0, []⟩
  | retries, lastError, .netError :: rest =>
      if maxRetries < retries then epilogue lastError
      else
        let t := reqLoop maxRetries retryDelay raw (retries + 1)
          (some .connError) rest
        if retries + 1 ≤ maxRetries then
          ⟨t.result, t.calls + 1, .backoff (retryDelay * 2 ^ retries) :: t.waits⟩
        else ⟨t.result, t.calls + 1, t.waits⟩
  | retries, lastError, .ok r :: rest =>
      if maxRetries < retries then epilogue lastError
      else if r.status = 429 ∧ 0 < r.rateLimitReset then
        let t := reqLoop maxRetries retryDelay raw retries lastError rest
        ⟨t.result, t.calls + 1, .untilReset r.rateLimitReset :: t.waits⟩
      else if 400 ≤ r.status ∧ r.status < 600 then
        if 400 ≤ r.status ∧ r.status < 500 ∧ r.status ≠ 429 then
          ⟨.raised (fatalError r), 1, []⟩
        else
          let t := reqLoop maxRetries retryDelay raw (retries + 1)
            (some (.httpError r)) rest
          if retries + 1 ≤ maxRetries then
            ⟨t.result, t.calls + 1,
              .backoff (retryDelay * 2 ^ retries) :: t.waits⟩
          else ⟨t.result, t.calls + 1, t.waits⟩
      else
        if raw then ⟨.success (.raw r.body), 1, []⟩
        else
          match r.body with
          | .empty => ⟨.success .nothing, 1, []⟩
          | .json j => ⟨.success (.json j), 1, []⟩
          | .raw _ => ⟨.raised .decodeError, 1, []⟩

/-- `GitHubAPIBase._request` (leading underscore dropped): the loop started
from `retries = 0`, `last_error = None`. -/
def request (maxRetries retryDelay : Nat) (raw : Bool)
    (calls : List CallResult) : Trace ReqResult :=
  reqLoop maxRetries retryDelay raw 0 none calls

/-- Result of `GitHubStargazersAPI.check_if_starred`. -/
inductive Starred where
  | value (b : Bool)
  | raised (e : ReqError)
  | oracleEnd (retries : Nat) (lastError : Option LastErr)
  deriving Repr

/-- `GitHubStargazersAPI.check_if_starred`: `self.api.get(...)` then `True`;
a `GitHubAPIError` with `status_code == 404` yields `False`, any other
`GitHubAPIError` is re-raised, and non-`GitHubAPIError` exceptions
propagate. -/
def check_if_starred (maxRetries retryDelay : Nat)
    (calls : List CallResult) : Trace Starred :=
  let t := request maxRetries retryDelay false calls
  match t.result with
  | .success _ => ⟨.value true, t.calls, t.waits⟩
  | .raised (.apiError st m) =>
      if st = 404 then ⟨.value false, t.calls, t.waits⟩
      else ⟨.raised (.apiError st m), t.calls, t.waits⟩
  | .raised e => ⟨.raised e, t.calls, t.waits⟩
  | .oracleEnd a b => ⟨.oracleEnd a b, t.calls, t.waits⟩

end Advanced2

namespace Output
/-
  Embedding of the `GitHubAPI` client from Chapter_4/output.py.
-/

/-- Errors `_request` can surface: the `Exception("GitHub API Error:
{status} - {message}")` raised when the error response decodes to a dict,
the `Exception("GitHub API Error: {str(e)}")` fallback (response absent,
undecodable, or not a dict), and the uncaught `ValueError` from
`response.json()` on a non-204 success without a JSON body. -/
inductive OutError where
  | apiError (status : Nat) (message : ErrMsg)
  | genericError
  | decodeError
  deriving Repr

/-- The `except RequestException` handler of `GitHubAPI._request`: decode
`e.response.json()` and raise with `error_data.get('message', str(e))`;
a missing response (`AttributeError`), undecodable body (`ValueError`), or
non-dict body (`AttributeError` on `.get`) falls back to the generic
exception. -/
def outFail (c : CallResult) : OutError :=
  match c with
  | .netError => .genericError
  | .ok r =>
      match r.body with
      | .json (.obj fields) =>
          .apiError r.status
            (match messageField fields with
             | some v => .fromServer v
             | none => .generic)
      | _ => .genericError

/-- Result of `GitHubAPI._request`; `fuelOut` is the model artifact for
exhausting the recursion allowance of the unbounded 429 self-call, and
`oracleEnd` for an exhausted outcome oracle. -/
inductive OutResult where
  | value (v : Option Json)
  | raised (e : OutError)
  | fuelOut
  | oracleEnd
  deriving Repr

/-- `GitHubAPI._request` (leading underscore dropped): performs the call;
a 429 sleeps until `X-RateLimit-Reset` and retries by recursive self-call
with NO attempt counter and no cap (`fuel` only bounds the model, not the
code); other 4xx/5xx raise via the `except` handler; 204 returns `None`;
any other success returns `response.json()`. -/
def request : Nat → List CallResult → Trace OutResult
  | _, [] => ⟨.oracleEnd, 0, []⟩
  | _, .netError :: _ => ⟨.raised .genericError, 1, []⟩
  | fuel, .ok r :: rest =>
      if r.status = 429 then
        match fuel with
        | 0 => ⟨.fuelOut, 1, [.untilReset r.rateLimitReset]⟩
        | fuel' + 1 =>
            let t := request fuel' rest
            ⟨t.result, t.calls + 1, .untilReset r.rateLimitReset :: t.waits⟩
      else if 400 ≤ r.status ∧ r.status < 600 then
        ⟨.raised (outFail (.ok r)), 1, []⟩
      else if r.status = 204 then ⟨.value none, 1, []⟩
      else
        match r.body with
        | .json j => ⟨.value (some j), 1, []⟩
        | _ => ⟨.raised .decodeError, 1, []⟩

/-- State of one `paginate` sweep: accumulated items, the page numbers
requested in order, the state of the (mutated) params dict, and whether the
loop reached a `break` (`false` = the model's iteration allowance ran out
first). -/
structure PagState where
  items : List Json
  pagesReq : List Nat
  dict : List (String × Json)
  finished : Bool
  deriving Repr

/-- The `while True` loop of `GitHubAPI.paginate`, fetching from `fetch`
(the decoded value `_request` returns for the given `page` parameter).
Each iteration sets `params['page'] = page`, fetches, breaks unless the
response is a non-empty list, extends the accumulator, breaks if the page
is shorter than `params['per_page']`, else increments `page`. -/
def pagLoop (perPage : Int) (fetch : Nat → Option Json) :
    Nat → Nat → List (String × Json) → PagState
  | 0, _, d => ⟨[], [], d, false⟩
  | fuel + 1, page, d =>
      let d1 := setParam d "page" (.num (page : Int))
      match fetch page with
      | none => ⟨[], [page], d1, true⟩
      | some j =>
          match j with
          | .arr items =>
              if items.isEmpty then ⟨[], [page], d1, true⟩
              else if (items.length : Int) < perPage then
                ⟨items, [page], d1, true⟩
              else
                let s := pagLoop perPage fetch fuel (page + 1) d1
                ⟨items ++ s.items, page :: s.pagesReq, s.dict, s.finished⟩
          | _ => ⟨[], [page], d1, true⟩

/-- The `per_page` value `paginate` uses: `params.get('per_page', 100)`.
The model requires a numeric (or absent) caller-supplied `per_page`; a
non-numeric value would make the Python length comparison raise. -/
def perPageOf (params : List (String × Json)) : Int :=
  match lookupParam params "per_page" with
  | some (.num n) => n
  | _ => 100

/-- Result of `GitHubAPI.paginate`.  `callerAfter` is the state of the
CALLER's dictionary when the call returns: `params = params or {}` aliases
the caller's dict only when it is non-empty (an empty dict is falsy and is
replaced by a fresh one), so only a non-empty caller dict receives the
loop's mutations. -/
structure PaginateResult where
  items : List Json
  pagesReq : List Nat
  finished : Bool
  loopParams : List (String × Json)
  callerAfter : List (String × Json)
  deriving Repr

/-- `GitHubAPI.paginate`: `params = params or {}`;
`params['per_page'] = params.get('per_page', 100)`; then the page loop
from `page = 1`. -/
def paginate (fetch : Nat → Option Json) (fuel : Nat)
    (callerParams : List (String × Json)) : PaginateResult :=
  let d0 := if callerParams.isEmpty then [] else callerParams
  let pp := perPageOf d0
  let d1 := setParam d0 "per_page" (.num pp)
  let s := pagLoop pp fetch fuel 1 d1
  ⟨s.items, s.pagesReq, s.finished, s.dict,
    if callerParams.isEmpty then callerParams else s.dict⟩

/-- `GitHubAPI.create_issue` request body: `data = {'title': title,
**kwargs}` then `if body: data['body'] = body` (so a `None` — or empty —
`body` is omitted, and no null-valued keys are injected for absent
optionals). -/
def create_issue_data (title : String) (body : Option String)
    (kwargs : List (String × Json)) : List (String × Json) :=
  let data := kwargs.foldl (fun d kv => setParam d kv.1 kv.2)
    [("title", Json.str title)]
  match body with
  | some s => if s.isEmpty then data else setParam data "body" (.str s)
  | none => data

/-- `GitHubAPI.update_issue` request body: exactly the caller's `**kwargs`,
passed through unchanged. -/
def update_issue_data (kwargs : List (String × Json)) :
    List (String × Json) :=
  kwargs

end Output

/-- The `HTTPError` raised by `response.raise_for_status()` in the
single-request clients (no retry layer). -/
inductive SimpleErr where
  | httpError (status : Nat)
  deriving Repr, DecidableEq

namespace Ch2
/-
  Embedding of the `GitHubAPI` client from Chapter_2/stargazers.py.
-/

/-- `GitHubAPI.check_if_starred`: `return response.status_code == 204` —
no `raise_for_status`, so no status ever raises; every status other than
204 (including 200) yields `False`. -/
def check_if_starred (r : HttpResponse) : Except SimpleErr Bool :=
  .ok (r.status == 204)

/-- `GitHubAPI.create_issue` request body: a dict literal that always
contains all four keys, with `None` (serialized as JSON `null`) for every
optional argument the caller omitted. -/
def create_issue_data (title : String) (body assignees labels : Option Json) :
    List (String × Json) :=
  [("title", .str title), ("body", body.getD .null),
   ("assignees", assignees.getD .null), ("labels", labels.getD .null)]

end Ch2

namespace Ch4
/-
  Embedding of the module-level functions from Chapter_4/stargazers.py.
-/

/-- The module-level `check_if_starred`: 204 → `True`, 404 → `False`,
otherwise `response.raise_for_status()` — which raises for 4xx/5xx but
returns `None` for any other status (e.g. 200), making the function fall
through and return Python `None` rather than a boolean. -/
def check_if_starred (r : HttpResponse) : Except SimpleErr (Option Bool) :=
  if r.status = 204 then .ok (some true)
  else if r.status = 404 then .ok (some false)
  else if 400 ≤ r.status ∧ r.status < 600 then .error (.httpError r.status)
  else .ok none

end Ch4

namespace SClass
/-
  Embedding of `StargazersClient` from Chapter_4/stargazers-class.py.
-/

/-- `StargazersClient.is_repository_starred`: `raise_for_status()` then
`True`; an `HTTPError` with status 404 yields `False`; other `HTTPError`s
are re-raised. -/
def is_repository_starred (r : HttpResponse) : Except SimpleErr Bool :=
  if 400 ≤ r.status ∧ r.status < 600 then
    if r.status = 404 then .ok false else .error (.httpError r.status)
  else .ok true

end SClass

namespace Step2
/-
  Embedding of `GitHubAPI.update_issue` from
  samples/Chapter 3/section-4-step-2.py.
-/

/-- `GitHubAPI.update_issue` PATCH body: a dict literal that always contains
all five keys, with `None` (serialized as JSON `null`) for every field the
caller omitted. -/
def update_issue_data (title body state assignees labels : Option Json) :
    List (String × Json) :=
  [("title", title.getD .null), ("body", body.getD .null),
   ("state", state.getD .null), ("assignees", assignees.getD .null),
   ("labels", labels.getD .null)]

end Step2

/- Concrete fixtures used by witnesses and counterexamples. -/

/-- A 200 response with a decodable JSON object body. -/
def respOk : HttpResponse := ⟨200, .json (.obj [("data", .str "ok")]), none, 0⟩

/-- A 204 No Content response. -/
def respNoContent : HttpResponse := ⟨204, .empty, none, 0⟩

/-- A 404 response with GitHub's usual error body. -/
def respNotFound : HttpResponse :=
  ⟨404, .json (.obj [("message", .str "Not Found")]), none, 0⟩

/-- A 404 response with an empty body. -/
def respNotFoundEmpty : HttpResponse := ⟨404, .empty, none, 0⟩

/-- A 500 response. -/
def respServerErr : HttpResponse := ⟨500, .empty, none, 0⟩

/-- A 429 response with a positive `X-RateLimit-Reset` header. -/
def respRateLimited : HttpResponse := ⟨429, .empty, none, 1000⟩

/-- A 429 response with a `Retry-After: 7` header. -/
def respRateLimitedHint : HttpResponse := ⟨429, .empty, some 7, 0⟩

/-- `count` distinct stargazer records numbered from `start`. -/
def pageItems (start count : Nat) : List Json :=
  (List.range count).map (fun k => .num (Int.ofNat (start + k)))

/-- Page oracle serving pages of sizes 100, 100, 37 and then empty pages. -/
def pagesBig : Nat → Option Json := fun n =>
  if n = 1 then some (.arr (pageItems 0 100))
  else if n = 2 then some (.arr (pageItems 100 100))
  else if n = 3 then some (.arr (pageItems 200 37))
  else some (.arr [])

/-- Page oracle serving an empty first page. -/
def pagesEmpty : Nat → Option Json := fun _ => some (.arr [])

/-- Whether a decoded page response makes the `paginate` loop break: not a
list, `None`, empty, or shorter than `per_page`. -/
def stopPage (perPage : Int) (resp : Option Json) : Bool :=
  match resp with
  | none => true
  | some (.arr xs) => xs.isEmpty || decide ((xs.length : Int) < perPage)
  | some _ => true

/-- Bodies on which `response.json() if response.content else None` does not
raise. -/
def decodableBody (b : Body) : Bool :=
  match b with
  | .raw _ => false
  | _ => true

/- Theorems. -/

set_option maxRecDepth 4096 in
/-- C3: `paginate` requests page 1 with `per_page` defaulting to 100 when
the caller supplies none, accumulates returned items in server-return
order, stops on a short or empty page and otherwise increments the page:
with pages of sizes [100,100,37] it returns exactly the 237 items in order
via exactly the 3 requests for pages 1,2,3, and with an empty first page it
returns no items via exactly 1 request. -/
theorem C3_paginate_behavior :
    (Output.paginate pagesBig 10 []).items
        = pageItems 0 100 ++ pageItems 100 100 ++ pageItems 200 37
    ∧ (Output.paginate pagesBig 10 []).items = pageItems 0 237
    ∧ (Output.paginate pagesBig 10 []).pagesReq = [1, 2, 3]
    ∧ (Output.paginate pagesBig 10 []).finished = true
    ∧ lookupParam (Output.paginate pagesBig 10 []).loopParams "per_page"
        = some (.num 100)
    ∧ (Output.paginate pagesEmpty 10 []).items = []
    ∧ (Output.paginate pagesEmpty 10 []).pagesReq = [1]
    ∧ (Output.paginate pagesEmpty 10 []).finished = true :=
  ⟨rfl, rfl, rfl, rfl, rfl, rfl, rfl, rfl⟩

/-- C10 counterexample: a caller-passed EMPTY params dict is not mutated
in place — `params = params or {}` replaces a falsy dict with a fresh one —
so after the call the caller's dictionary contains neither a `per_page` nor
a `page` key, contrary to the claim (which covers every caller-passed
dictionary). -/
theorem C10_counterexample :
    (Output.paginate pagesBig 10 []).callerAfter = []
    ∧ lookupParam (Output.paginate pagesBig 10 []).callerAfter "page" = none
    ∧ lookupParam (Output.paginate pagesBig 10 []).callerAfter "per_page"
        = none :=
  ⟨rfl, rfl, rfl⟩

/-- C6 counterexample: Chapter 2's `create_issue` invoked with only its
required `title` argument sends a body whose key set is all four keys, with
a JSON `null` for the unsupplied optional `body` — not a body with exactly
the required keys. -/
theorem C6_counterexample :
    (Ch2.create_issue_data "New issue" none none none).map Prod.fst
        = ["title", "body", "assignees", "labels"]
    ∧ lookupParam (Ch2.create_issue_data "New issue" none none none) "body"
        = some .null
    ∧ lookupParam (Ch2.create_issue_data "New issue" none none none) "body"
        ≠ none :=
  ⟨rfl, rfl, by
    intro h
    rw [show lookupParam (Ch2.create_issue_data "New issue" none none none)
          "body" = some Json.null from rfl] at h
    exact Option.noConfusion h⟩

/-- C6 (amended): output.py's `create_issue` invoked with only the required
`title` sends exactly `{"title": title}` (no null-valued optional keys);
Chapter 2's `create_issue` (and its Chapter 3 copies) instead always sends
all four keys with `null` for each omitted optional. -/
theorem C6_create_issue_bodies :
    (∀ t : String, Output.create_issue_data t none [] = [("title", .str t)])
    ∧ ∀ t : String,
        Ch2.create_issue_data t none none none
          = [("title", .str t), ("body", .null), ("assignees", .null),
             ("labels", .null)] :=
  ⟨fun _ => rfl, fun _ => rfl⟩

/-- C7 counterexample: section-4-step-2's `update_issue` invoked with only
`title` sends a PATCH body containing all five keys, including `"state":
null` for a field the caller never supplied. -/
theorem C7_counterexample :
    (Step2.update_issue_data (some (.str "Updated title")) none none none
        none).map Prod.fst
      = ["title", "body", "state", "assignees", "labels"]
    ∧ lookupParam
        (Step2.update_issue_data (some (.str "Updated title")) none none
          none none) "state"
      = some .null :=
  ⟨rfl, rfl⟩

/-- C7 (amended): output.py's `update_issue` sends exactly the
caller-supplied `**kwargs` as the PATCH body, while section-4-step-2's
`update_issue` always sends all five fields with `null` for each omitted
one. -/
theorem C7_update_issue_bodies :
    (∀ kwargs, Output.update_issue_data kwargs = kwargs)
    ∧ ∀ t b s a l,
        (Step2.update_issue_data t b s a l).map Prod.fst
          = ["title", "body", "state", "assignees", "labels"] :=
  ⟨fun _ => rfl, fun _ _ _ _ _ => rfl⟩

/-- C9: Chapter 2's `check_if_starred` returns `false` for every response
status other than 204 (including 200, 401, 403 and 5xx) and never raises:
it performs no `raise_for_status`, so every status yields a boolean. -/
theorem C9_check_if_starred_nonraising :
    (∀ r : HttpResponse, r.status ≠ 204 → Ch2.check_if_starred r = .ok false)
    ∧ ∀ r : HttpResponse, ∃ b, Ch2.check_if_starred r = .ok b := by
  constructor
  · intro r h
    have hb : (r.status == 204) = false := by
      simpa using h
    simp [Ch2.check_if_starred, hb]
  · intro r
    exact ⟨r.status == 204, rfl⟩

/-- C9 witness: a 500 response is not 204 and yields `ok false`. -/
theorem C9_check_if_starred_nonraising_witness :
    respServerErr.status ≠ 204 ∧ Ch2.check_if_starred respServerErr = .ok false :=
  ⟨by decide, C9_check_if_starred_nonraising.1 respServerErr (by decide)⟩

/-- C4 counterexample: Chapter 2's membership-check wrapper
`check_if_starred` returns `false`, not `true`, for a 200 response, because
it tests `status_code == 204` exactly. -/
theorem C4_counterexample :
    Ch2.check_if_starred respOk = .ok false
    ∧ Ch2.check_if_starred respOk ≠ .ok true :=
  ⟨rfl, by simp [Ch2.check_if_starred, respOk]⟩

/-- Reading back the key just written by a dict assignment. -/
theorem lookupParam_setParam_same (d : List (String × Json)) (k : String)
    (v : Json) : lookupParam (setParam d k v) k = some v := by
  induction d with
  | nil => simp [setParam, lookupParam]
  | cons kv rest ih =>
      obtain ⟨k', v'⟩ := kv
      by_cases h : k' = k
      · simp [setParam, h, lookupParam]
      · simp [setParam, h, lookupParam, ih]

/-- A dict assignment leaves every other key unchanged. -/
theorem lookupParam_setParam_of_ne (d : List (String × Json))
    (k k' : String) (v : Json) (h : k' ≠ k) :
    lookupParam (setParam d k v) k' = lookupParam d k' := by
  have hk : ¬(k = k') := fun hh => h hh.symm
  induction d with
  | nil => simp [setParam, lookupParam, hk]
  | cons kv rest ih =>
      obtain ⟨a, b⟩ := kv
      by_cases ha : a = k
      · subst ha
        simp [setParam, lookupParam, hk]
      · by_cases hb : a = k'
        · subst hb
          simp [setParam, ha, lookupParam, h]
        · simp [setParam, ha, lookupParam, hb, ih]

/-- If the page at index `i` is a terminating page, the `paginate` loop
reaches a `break` within `i - page + 1` further iterations. -/
theorem pagLoop_finished (perPage : Int) (fetch : Nat → Option Json)
    (i : Nat) (hstop : stopPage perPage (fetch i) = true) :
    ∀ (fuel page : Nat) (d : List (String × Json)), page ≤ i →
      i + 1 ≤ page + fuel →
      (Output.pagLoop perPage fetch fuel page d).finished = true := by
  intro fuel
  induction fuel with
  | zero => intro page d h1 h2; omega
  | succ n ih =>
      intro page d h1 h2
      rcases hf : fetch page with _ | j
      · simp [Output.pagLoop, hf]
      · rcases j with _ | b | m | st | xs | fs
        · simp [Output.pagLoop, hf]
        · simp [Output.pagLoop, hf]
        · simp [Output.pagLoop, hf]
        · simp [Output.pagLoop, hf]
        · by_cases hemp : xs.isEmpty
          · simp [Output.pagLoop, hf, hemp]
          · by_cases hshort : (xs.length : Int) < perPage
            · simp [Output.pagLoop, hf, hemp, hshort]
            · have hpi : page ≠ i := by
                intro hh
                subst hh
                rw [hf] at hstop
                simp [stopPage, hemp, hshort] at hstop
              have h1' : page + 1 ≤ i := by omega
              simp only [Output.pagLoop, hf]
              rw [if_neg hemp, if_neg hshort]
              exact ih (page + 1) _ h1' (by omega)
        · simp [Output.pagLoop, hf]

/-- C8: the pagination sweep terminates whenever some reachable page is
eventually shorter than `per_page`, empty, or otherwise loop-breaking: if
page `i` (`i ≥ 1`) is such a page and the model's iteration allowance
covers it, `paginate` reaches its `break`. -/
theorem C8_paginate_terminates (fetch : Nat → Option Json)
    (params : List (String × Json)) (fuel i : Nat) (h1 : 1 ≤ i)
    (h2 : i ≤ fuel)
    (hstop : stopPage (Output.perPageOf params) (fetch i) = true) :
    (Output.paginate fetch fuel params).finished = true := by
  have hd0 :
      (if params.isEmpty then ([] : List (String × Json)) else params)
        = params := by
    cases params <;> simp
  simp only [Output.paginate]
  rw [hd0]
  exact pagLoop_finished _ fetch i hstop fuel 1 _ h1 (by omega)

/-- C8 witness: an empty first page with default `per_page` terminates the
sweep. -/
theorem C8_paginate_terminates_witness :
    (1 ≤ 1 ∧ 1 ≤ 3
      ∧ stopPage (Output.perPageOf []) (pagesEmpty 1) = true)
    ∧ (Output.paginate pagesEmpty 3 []).finished = true :=
  ⟨⟨le_refl 1, by omega, rfl⟩,
    C8_paginate_terminates pagesEmpty [] 3 1 (le_refl 1) (by omega) rfl⟩


/-- Unfolding of one full-page (non-terminal) `paginate` loop iteration. -/
theorem pagLoop_step (perPage : Int) (fetch : Nat → Option Json)
    (n page : Nat) (d : List (String × Json)) (xs : List Json)
    (hf : fetch page = some (.arr xs)) (hemp : ¬xs.isEmpty = true)
    (hshort : ¬(xs.length : Int) < perPage) :
    Output.pagLoop perPage fetch (n + 1) page d
      = ⟨xs ++ (Output.pagLoop perPage fetch n (page + 1)
            (setParam d "page" (.num (page : Int)))).items,
         page :: (Output.pagLoop perPage fetch n (page + 1)
            (setParam d "page" (.num (page : Int)))).pagesReq,
         (Output.pagLoop perPage fetch n (page + 1)
            (setParam d "page" (.num (page : Int)))).dict,
         (Output.pagLoop perPage fetch n (page + 1)
            (setParam d "page" (.num (page : Int)))).finished⟩ := by
  simp only [Output.pagLoop, hf]
  rw [if_neg hemp, if_neg hshort]

/-- After at least one iteration, the loop's dict maps `"page"` to the last
page number requested (and at least one page was requested). -/
theorem pagLoop_page_key (perPage : Int) (fetch : Nat → Option Json) :
    ∀ (fuel page : Nat) (d : List (String × Json)), 1 ≤ fuel →
      ∃ p,
        (Output.pagLoop perPage fetch fuel page d).pagesReq.getLast? = some p
        ∧ lookupParam (Output.pagLoop perPage fetch fuel page d).dict "page"
            = some (.num (p : Int)) := by
  intro fuel
  induction fuel with
  | zero => intro page d h; omega
  | succ n ih =>
      intro page d _
      rcases hf : fetch page with _ | j
      · refine ⟨page, ?_, ?_⟩ <;>
          simp [Output.pagLoop, hf, lookupParam_setParam_same]
      · rcases j with _ | b | m | st | xs | fs
        case arr =>
          by_cases hemp : xs.isEmpty
          · refine ⟨page, ?_, ?_⟩ <;>
              simp [Output.pagLoop, hf, hemp, lookupParam_setParam_same]
          · by_cases hshort : (xs.length : Int) < perPage
            · refine ⟨page, ?_, ?_⟩ <;>
                simp [Output.pagLoop, hf, hemp, hshort,
                  lookupParam_setParam_same]
            · rw [pagLoop_step perPage fetch n page d xs hf hemp hshort]
              rcases n with _ | m
              · refine ⟨page, ?_, ?_⟩ <;>
                  simp [Output.pagLoop, lookupParam_setParam_same]
              · obtain ⟨p, hp1, hp2⟩ :=
                  ih (page + 1) (setParam d "page" (.num (page : Int)))
                    (by omega)
                refine ⟨p, ?_, hp2⟩
                rcases hq : (Output.pagLoop perPage fetch (m + 1) (page + 1)
                    (setParam d "page" (.num (page : Int)))).pagesReq with
                  _ | ⟨y, ys⟩
                · rw [hq] at hp1
                  simp at hp1
                · rw [hq] at hp1
                  simp only [hq, List.getLast?_cons_cons]
                  exact hp1
        all_goals
          refine ⟨page, ?_, ?_⟩ <;>
            simp [Output.pagLoop, hf, lookupParam_setParam_same]

/-- The loop never touches dict keys other than `"page"`. -/
theorem pagLoop_other_key (perPage : Int) (fetch : Nat → Option Json)
    (k : String) (hk : k ≠ "page") :
    ∀ (fuel page : Nat) (d : List (String × Json)),
      lookupParam (Output.pagLoop perPage fetch fuel page d).dict k
        = lookupParam d k := by
  intro fuel
  induction fuel with
  | zero => intro page d; simp [Output.pagLoop]
  | succ n ih =>
      intro page d
      rcases hf : fetch page with _ | j
      · simp [Output.pagLoop, hf, lookupParam_setParam_of_ne _ _ _ _ hk]
      · rcases j with _ | b | m | st | xs | fs
        case arr =>
          by_cases hemp : xs.isEmpty
          · simp [Output.pagLoop, hf, hemp,
              lookupParam_setParam_of_ne _ _ _ _ hk]
          · by_cases hshort : (xs.length : Int) < perPage
            · simp [Output.pagLoop, hf, hemp, hshort,
                lookupParam_setParam_of_ne _ _ _ _ hk]
            · rw [pagLoop_step perPage fetch n page d xs hf hemp hshort]
              rw [show (⟨_, _,
                    (Output.pagLoop perPage fetch n (page + 1)
                      (setParam d "page" (.num (page : Int)))).dict,
                    _⟩ : Output.PagState).dict
                  = (Output.pagLoop perPage fetch n (page + 1)
                      (setParam d "page" (.num (page : Int)))).dict from rfl]
              rw [ih (page + 1) (setParam d "page" (.num (page : Int)))]
              exact lookupParam_setParam_of_ne _ _ _ _ hk
        all_goals
          simp [Output.pagLoop, hf, lookupParam_setParam_of_ne _ _ _ _ hk]

/-- `paginate` on a non-empty caller dict, unfolded: the caller's dict is
aliased and receives the loop's mutations. -/
theorem paginate_cons (fetch : Nat → Option Json) (fuel : Nat)
    (kv : String × Json) (rest : List (String × Json)) :
    Output.paginate fetch fuel (kv :: rest)
      = ⟨(Output.pagLoop (Output.perPageOf (kv :: rest)) fetch fuel 1
            (setParam (kv :: rest) "per_page"
              (.num (Output.perPageOf (kv :: rest))))).items,
         (Output.pagLoop (Output.perPageOf (kv :: rest)) fetch fuel 1
            (setParam (kv :: rest) "per_page"
              (.num (Output.perPageOf (kv :: rest))))).pagesReq,
         (Output.pagLoop (Output.perPageOf (kv :: rest)) fetch fuel 1
            (setParam (kv :: rest) "per_page"
              (.num (Output.perPageOf (kv :: rest))))).finished,
         (Output.pagLoop (Output.perPageOf (kv :: rest)) fetch fuel 1
            (setParam (kv :: rest) "per_page"
              (.num (Output.perPageOf (kv :: rest))))).dict,
         (Output.pagLoop (Output.perPageOf (kv :: rest)) fetch fuel 1
            (setParam (kv :: rest) "per_page"
              (.num (Output.perPageOf (kv :: rest))))).dict⟩ := rfl

/-- C10 (amended): a NON-EMPTY caller-passed params dictionary is mutated in
place — the caller's dict is the loop's dict when the call returns — and
afterwards it contains a `per_page` key (the caller's value or the default
100) and a `page` key equal to the last page number requested. -/
theorem C10_params_mutation (fetch : Nat → Option Json) (fuel : Nat)
    (params : List (String × Json)) (hne : params ≠ []) (hfuel : 1 ≤ fuel) :
    (Output.paginate fetch fuel params).callerAfter
        = (Output.paginate fetch fuel params).loopParams
    ∧ lookupParam (Output.paginate fetch fuel params).callerAfter "per_page"
        = some (.num (Output.perPageOf params))
    ∧ ∃ p,
        (Output.paginate fetch fuel params).pagesReq.getLast? = some p
        ∧ lookupParam (Output.paginate fetch fuel params).callerAfter "page"
            = some (.num (p : Int)) := by
  rcases params with _ | ⟨kv, rest⟩
  · exact absurd rfl hne
  rw [paginate_cons]
  refine ⟨rfl, ?_, ?_⟩
  · rw [show (⟨_, _, _,
        (Output.pagLoop (Output.perPageOf (kv :: rest)) fetch fuel 1
          (setParam (kv :: rest) "per_page"
            (.num (Output.perPageOf (kv :: rest))))).dict,
        (Output.pagLoop (Output.perPageOf (kv :: rest)) fetch fuel 1
          (setParam (kv :: rest) "per_page"
            (.num (Output.perPageOf (kv :: rest))))).dict⟩ :
          Output.PaginateResult).callerAfter
      = (Output.pagLoop (Output.perPageOf (kv :: rest)) fetch fuel 1
          (setParam (kv :: rest) "per_page"
            (.num (Output.perPageOf (kv :: rest))))).dict from rfl]
    rw [pagLoop_other_key _ fetch "per_page" (by decide)]
    exact lookupParam_setParam_same _ _ _
  · exact pagLoop_page_key _ fetch fuel 1 _ hfuel

/-- C10 witness: a caller dict `{"per_page": 50}` is mutated in place and
ends up with its `per_page` key and a final `page` key. -/
theorem C10_params_mutation_witness :
    ([("per_page", Json.num 50)] ≠ [] ∧ 1 ≤ 3)
    ∧ (Output.paginate pagesEmpty 3 [("per_page", Json.num 50)]).callerAfter
        = (Output.paginate pagesEmpty 3
            [("per_page", Json.num 50)]).loopParams
    ∧ lookupParam
        (Output.paginate pagesEmpty 3
          [("per_page", Json.num 50)]).callerAfter "per_page"
      = some (.num (Output.perPageOf [("per_page", Json.num 50)]))
    ∧ ∃ p,
        (Output.paginate pagesEmpty 3
          [("per_page", Json.num 50)]).pagesReq.getLast? = some p
        ∧ lookupParam
            (Output.paginate pagesEmpty 3
              [("per_page", Json.num 50)]).callerAfter "page"
          = some (.num (p : Int)) :=
  ⟨⟨by simp, by omega⟩,
    C10_params_mutation pagesEmpty 3 [("per_page", Json.num 50)]
      (by simp) (by omega)⟩

/-- `_make_request` consumes each leading retryable (5xx / transport)
failure with one counted retry and returns the first success response. -/
theorem mrLoop_success_after_fails (maxR : Nat) (r : HttpResponse)
    (hr : r.status < 400) :
    ∀ (fails : List CallResult) (retries delay : Nat)
      (tail : List CallResult),
      (∀ c ∈ fails, retryable5xx c = true) →
      retries + fails.length ≤ maxR →
      (Advanced.mrLoop maxR retries delay (fails ++ .ok r :: tail)).result
          = .success r
      ∧ (Advanced.mrLoop maxR retries delay (fails ++ .ok r :: tail)).calls
          = fails.length + 1 := by
  intro fails
  induction fails with
  | nil =>
      intro retries delay tail _ hle
      have hg : ¬maxR < retries := by simp at hle; omega
      have h429 : ¬r.status = 429 := by omega
      have h4xx : ¬(400 ≤ r.status ∧ r.status < 600) := by omega
      simp only [List.nil_append, Advanced.mrLoop]
      rw [if_neg hg, if_neg h429, if_neg h4xx]
      exact ⟨rfl, rfl⟩
  | cons c cs ih =>
      intro retries delay tail hall hle
      simp only [List.length_cons] at hle
      have hg : ¬maxR < retries := by omega
      have hlt : ¬maxR ≤ retries := by omega
      obtain ⟨ih1, ih2⟩ := ih (retries + 1) (delay * 2) tail
        (fun c hc => hall c (List.mem_cons_of_mem _ hc)) (by omega)
      rcases c with r' | _
      · have hc := hall (.ok r') (List.mem_cons_self _ _)
        simp only [retryable5xx, Bool.and_eq_true, decide_eq_true_eq] at hc
        have h429' : ¬r'.status = 429 := by omega
        have h4xx' : 400 ≤ r'.status ∧ r'.status < 600 := by omega
        simp only [List.cons_append, Advanced.mrLoop]
        rw [if_neg hg, if_neg h429', if_pos h4xx', if_neg hlt]
        refine ⟨ih1, ?_⟩
        show (Advanced.mrLoop maxR (retries + 1) (delay * 2)
            (cs ++ .ok r :: tail)).calls + 1 = cs.length + 1 + 1
        rw [ih2]
      · simp only [List.cons_append, Advanced.mrLoop]
        rw [if_neg hg, if_neg hlt]
        refine ⟨ih1, ?_⟩
        show (Advanced.mrLoop maxR (retries + 1) (delay * 2)
            (cs ++ .ok r :: tail)).calls + 1 = cs.length + 1 + 1
        rw [ih2]

/-- `_request` consumes each leading retryable (5xx / transport) failure
with one counted retry and returns the decoded body of the first
success. -/
theorem reqLoop_success_after_fails (maxR rd : Nat) (r : HttpResponse)
    (j : Json) (hr : r.status < 400) (hb : r.body = .json j) :
    ∀ (fails : List CallResult) (retries : Nat)
      (le : Option Advanced2.LastErr) (tail : List CallResult),
      (∀ c ∈ fails, retryable5xx c = true) →
      retries + fails.length ≤ maxR →
      (Advanced2.reqLoop maxR rd false retries le
          (fails ++ .ok r :: tail)).result = .success (.json j)
      ∧ (Advanced2.reqLoop maxR rd false retries le
          (fails ++ .ok r :: tail)).calls = fails.length + 1 := by
  intro fails
  induction fails with
  | nil =>
      intro retries le tail _ hle
      have hg : ¬maxR < retries := by simp at hle; omega
      have h429 : ¬(r.status = 429 ∧ 0 < r.rateLimitReset) := by
        rintro ⟨h1, -⟩; omega
      have h4xx : ¬(400 ≤ r.status ∧ r.status < 600) := by omega
      simp only [List.nil_append, Advanced2.reqLoop]
      rw [if_neg hg, if_neg h429, if_neg h4xx, if_neg (by decide)]
      rw [hb]
      exact ⟨rfl, rfl⟩
  | cons c cs ih =>
      intro retries le tail hall hle
      simp only [List.length_cons] at hle
      have hg : ¬maxR < retries := by omega
      have hcont : retries + 1 ≤ maxR := by omega
      rcases c with r' | _
      · have hc := hall (.ok r') (List.mem_cons_self _ _)
        simp only [retryable5xx, Bool.and_eq_true, decide_eq_true_eq] at hc
        have h429' : ¬(r'.status = 429 ∧ 0 < r'.rateLimitReset) := by
          rintro ⟨h1, -⟩; omega
        have h4xx' : 400 ≤ r'.status ∧ r'.status < 600 := by omega
        have hfatal : ¬(400 ≤ r'.status ∧ r'.status < 500 ∧ r'.status ≠ 429) := by
          rintro ⟨-, h2, -⟩; omega
        obtain ⟨ih1, ih2⟩ := ih (retries + 1) (some (.httpError r')) tail
          (fun c hc => hall c (List.mem_cons_of_mem _ hc)) (by omega)
        simp only [List.cons_append, Advanced2.reqLoop]
        rw [if_neg hg, if_neg h429', if_pos h4xx', if_neg hfatal,
          if_pos hcont]
        refine ⟨ih1, ?_⟩
        show (Advanced2.reqLoop maxR rd false (retries + 1)
            (some (.httpError r')) (cs ++ .ok r :: tail)).calls + 1
          = cs.length + 1 + 1
        rw [ih2]
      · obtain ⟨ih1, ih2⟩ := ih (retries + 1) (some .connError) tail
          (fun c hc => hall c (List.mem_cons_of_mem _ hc)) (by omega)
        simp only [List.cons_append, Advanced2.reqLoop]
        rw [if_neg hg, if_pos hcont]
        refine ⟨ih1, ?_⟩
        show (Advanced2.reqLoop maxR rd false (retries + 1)
            (some .connError) (cs ++ .ok r :: tail)).calls + 1
          = cs.length + 1 + 1
        rw [ih2]

/-- `_make_request` with the GET verb is the retry loop from its initial
state. -/
theorem make_request_get_eq (maxR rd : Nat) (calls : List CallResult) :
    Advanced.make_request maxR rd "GET" calls
      = Advanced.mrLoop maxR 0 rd calls := rfl

/-- C1: for k leading retryable failures (5xx or transport-level) with
k ≤ max_retries followed by a success, both request executors return the
decoded JSON body of the successful response and perform exactly k+1
network calls (`_make_request` is shown through its `get` wrapper, which
performs the decoding; `_request` decodes internally). -/
theorem C1_retry_then_success :
    (∀ (maxRetries retryDelay : Nat) (fails : List CallResult)
        (r : HttpResponse) (j : Json) (tail : List CallResult),
        (∀ c ∈ fails, retryable5xx c = true) →
        fails.length ≤ maxRetries → r.status < 400 → r.body = .json j →
        (Advanced.get maxRetries retryDelay
            (fails ++ .ok r :: tail)).result = .value (some j)
        ∧ (Advanced.get maxRetries retryDelay
            (fails ++ .ok r :: tail)).calls = fails.length + 1)
    ∧ ∀ (maxRetries retryDelay : Nat) (fails : List CallResult)
        (r : HttpResponse) (j : Json) (tail : List CallResult),
        (∀ c ∈ fails, retryable5xx c = true) →
        fails.length ≤ maxRetries → r.status < 400 → r.body = .json j →
        (Advanced2.request maxRetries retryDelay false
            (fails ++ .ok r :: tail)).result = .success (.json j)
        ∧ (Advanced2.request maxRetries retryDelay false
            (fails ++ .ok r :: tail)).calls = fails.length + 1 := by
  constructor
  · intro maxR rd fails r j tail hall hk hr hb
    obtain ⟨h1, h2⟩ := mrLoop_success_after_fails maxR r hr fails 0 rd tail
      hall (by omega)
    have hd : Advanced.decodeContent r = .ok (some j) := by
      unfold Advanced.decodeContent
      rw [hb]
    constructor
    · simp only [Advanced.get, make_request_get_eq, h1, hd]
    · simp only [Advanced.get, make_request_get_eq, h1, hd]
      exact h2
  · intro maxR rd fails r j tail hall hk hr hb
    exact reqLoop_success_after_fails maxR rd r j hr hb fails 0 none tail
      hall (by omega)

/-- C1 witness: a transport failure and a 500, then a 200 with a JSON
body — both executors return the decoded body after exactly 3 calls. -/
theorem C1_retry_then_success_witness :
    ((∀ c ∈ [CallResult.netError, .ok respServerErr],
        retryable5xx c = true)
      ∧ [CallResult.netError, .ok respServerErr].length ≤ 3
      ∧ respOk.status < 400
      ∧ respOk.body = .json (.obj [("data", .str "ok")]))
    ∧ (Advanced.get 3 1 ([CallResult.netError, .ok respServerErr]
          ++ .ok respOk :: [])).result
        = .value (some (.obj [("data", .str "ok")]))
    ∧ (Advanced.get 3 1 ([CallResult.netError, .ok respServerErr]
          ++ .ok respOk :: [])).calls = 3
    ∧ (Advanced2.request 3 1 false
          ([CallResult.netError, .ok respServerErr]
            ++ .ok respOk :: [])).result
        = .success (.json (.obj [("data", .str "ok")]))
    ∧ (Advanced2.request 3 1 false
          ([CallResult.netError, .ok respServerErr]
            ++ .ok respOk :: [])).calls = 3 :=
  ⟨⟨by decide, by decide, by decide, rfl⟩,
    (C1_retry_then_success.1 3 1 [CallResult.netError, .ok respServerErr]
      respOk (.obj [("data", .str "ok")]) [] (by decide) (by decide)
      (by decide) rfl).1,
    (C1_retry_then_success.1 3 1 [CallResult.netError, .ok respServerErr]
      respOk (.obj [("data", .str "ok")]) [] (by decide) (by decide)
      (by decide) rfl).2,
    (C1_retry_then_success.2 3 1 [CallResult.netError, .ok respServerErr]
      respOk (.obj [("data", .str "ok")]) [] (by decide) (by decide)
      (by decide) rfl).1,
    (C1_retry_then_success.2 3 1 [CallResult.netError, .ok respServerErr]
      respOk (.obj [("data", .str "ok")]) [] (by decide) (by decide)
      (by decide) rfl).2⟩

/-- The post-loop epilogue of `_request` always raises. -/
theorem epilogue_raised (le : Option Advanced2.LastErr) :
    ∃ e, Advanced2.epilogue le = ⟨.raised e, 0, []⟩ := by
  rcases le with _ | e
  · exact ⟨.apiError 0 .generic, rfl⟩
  · rcases e with r | _
    · exact ⟨Advanced2.fatalError r, rfl⟩
    · exact ⟨.apiError 0 .generic, rfl⟩

/-- At any reachable loop state, `_request` raises immediately on a fatal
4xx (≠ 429) response: one network call, no sleeps, `GitHubAPIError` with
that response's status and message. -/
theorem reqLoop_fatal_head (maxR rd : Nat) (raw : Bool) (retries : Nat)
    (le : Option Advanced2.LastErr) (r : HttpResponse)
    (tail : List CallResult) (hret : retries ≤ maxR) (h1 : 400 ≤ r.status)
    (h2 : r.status < 500) (h3 : r.status ≠ 429) :
    Advanced2.reqLoop maxR rd raw retries le (.ok r :: tail)
      = ⟨.raised (Advanced2.fatalError r), 1, []⟩ := by
  have hg : ¬maxR < retries := by omega
  have h429 : ¬(r.status = 429 ∧ 0 < r.rateLimitReset) := by
    rintro ⟨hh, -⟩; exact h3 hh
  have h4xx : 400 ≤ r.status ∧ r.status < 600 := ⟨h1, by omega⟩
  have hfatal : 400 ≤ r.status ∧ r.status < 500 ∧ r.status ≠ 429 :=
    ⟨h1, h2, h3⟩
  simp only [Advanced2.reqLoop]
  rw [if_neg hg, if_neg h429, if_pos h4xx, if_pos hfatal]

/-- If `_request` consumes a whole oracle prefix without terminating, then
on the prefix extended with a fatal 4xx (≠ 429) response it raises
immediately after that response: exactly one further network call, nothing
after it. -/
theorem reqLoop_fatal_after_prefix (maxR rd : Nat) (raw : Bool)
    (r : HttpResponse) (h1 : 400 ≤ r.status) (h2 : r.status < 500)
    (h3 : r.status ≠ 429) (tail : List CallResult) :
    ∀ (pre : List CallResult) (retries : Nat)
      (le : Option Advanced2.LastErr) (retries' : Nat)
      (le' : Option Advanced2.LastErr) (n : Nat) (ws : List Wait),
      Advanced2.reqLoop maxR rd raw retries le pre
        = ⟨.oracleEnd retries' le', n, ws⟩ →
      Advanced2.reqLoop maxR rd raw retries le (pre ++ .ok r :: tail)
        = ⟨.raised (Advanced2.fatalError r), n + 1, ws⟩ := by
  intro pre
  induction pre with
  | nil =>
      intro retries le retries' le' n ws h
      by_cases hg : maxR < retries
      · obtain ⟨e, he⟩ := epilogue_raised le
        simp only [Advanced2.reqLoop, if_pos hg, he] at h
        simp at h
      · simp only [Advanced2.reqLoop, if_neg hg] at h
        rw [Trace.mk.injEq] at h
        obtain ⟨-, hn, hws⟩ := h
        subst hn
        subst hws
        simp only [List.nil_append, Nat.zero_add]
        exact reqLoop_fatal_head maxR rd raw retries le r tail (by omega)
          h1 h2 h3
  | cons c cs ih =>
      intro retries le retries' le' n ws h
      by_cases hg : maxR < retries
      · obtain ⟨e, he⟩ := epilogue_raised le
        rcases c with rr | _
        · simp only [Advanced2.reqLoop, if_pos hg, he] at h
          simp at h
        · simp only [Advanced2.reqLoop, if_pos hg, he] at h
          simp at h
      · rcases c with rr | _
        · by_cases h429 : rr.status = 429 ∧ 0 < rr.rateLimitReset
          · simp only [Advanced2.reqLoop, if_neg hg, if_pos h429] at h
            rw [Trace.mk.injEq] at h
            obtain ⟨hres, hn, hws⟩ := h
            have ht : Advanced2.reqLoop maxR rd raw retries le cs
                = ⟨.oracleEnd retries' le',
                   (Advanced2.reqLoop maxR rd raw retries le cs).calls,
                   (Advanced2.reqLoop maxR rd raw retries le cs).waits⟩ := by
              rw [← hres]
            have hrec := ih retries le retries' le' _ _ ht
            simp only [List.cons_append, Advanced2.reqLoop, if_neg hg,
              if_pos h429, List.append_eq]
            rw [hrec, Trace.mk.injEq]
            exact ⟨rfl, by simp only []; omega, hws⟩
          · by_cases h4xx : 400 ≤ rr.status ∧ rr.status < 600
            · by_cases hfat :
                  400 ≤ rr.status ∧ rr.status < 500 ∧ rr.status ≠ 429
              · simp only [Advanced2.reqLoop, if_neg hg, if_neg h429,
                  if_pos h4xx, if_pos hfat] at h
                simp at h
              · simp only [Advanced2.reqLoop, if_neg hg, if_neg h429,
                  if_pos h4xx, if_neg hfat] at h
                by_cases hcont : retries + 1 ≤ maxR
                · rw [if_pos hcont, Trace.mk.injEq] at h
                  obtain ⟨hres, hn, hws⟩ := h
                  have ht : Advanced2.reqLoop maxR rd raw (retries + 1)
                      (some (.httpError rr)) cs
                      = ⟨.oracleEnd retries' le',
                         (Advanced2.reqLoop maxR rd raw (retries + 1)
                           (some (.httpError rr)) cs).calls,
                         (Advanced2.reqLoop maxR rd raw (retries + 1)
                           (some (.httpError rr)) cs).waits⟩ := by
                    rw [← hres]
                  have hrec := ih (retries + 1) (some (.httpError rr))
                    retries' le' _ _ ht
                  simp only [List.cons_append, Advanced2.reqLoop, if_neg hg,
                    if_neg h429, if_pos h4xx, if_neg hfat, List.append_eq]
                  rw [if_pos hcont, hrec, Trace.mk.injEq]
                  exact ⟨rfl, by simp only []; omega, hws⟩
                · rw [if_neg hcont, Trace.mk.injEq] at h
                  obtain ⟨hres, hn, hws⟩ := h
                  have ht : Advanced2.reqLoop maxR rd raw (retries + 1)
                      (some (.httpError rr)) cs
                      = ⟨.oracleEnd retries' le',
                         (Advanced2.reqLoop maxR rd raw (retries + 1)
                           (some (.httpError rr)) cs).calls,
                         (Advanced2.reqLoop maxR rd raw (retries + 1)
                           (some (.httpError rr)) cs).waits⟩ := by
                    rw [← hres]
                  have hrec := ih (retries + 1) (some (.httpError rr))
                    retries' le' _ _ ht
                  simp only [List.cons_append, Advanced2.reqLoop, if_neg hg,
                    if_neg h429, if_pos h4xx, if_neg hfat, List.append_eq]
                  rw [if_neg hcont, hrec, Trace.mk.injEq]
                  exact ⟨rfl, by simp only []; omega, hws⟩
            · simp only [Advanced2.reqLoop, if_neg hg, if_neg h429,
                if_neg h4xx] at h
              by_cases hraw : raw = true
              · rw [if_pos hraw] at h
                simp at h
              · rw [if_neg hraw] at h
                rcases hbody : rr.body with _ | j | sraw <;>
                  rw [hbody] at h <;> simp at h
        · simp only [Advanced2.reqLoop, if_neg hg] at h
          by_cases hcont : retries + 1 ≤ maxR
          · rw [if_pos hcont, Trace.mk.injEq] at h
            obtain ⟨hres, hn, hws⟩ := h
            have ht : Advanced2.reqLoop maxR rd raw (retries + 1)
                (some .connError) cs
                = ⟨.oracleEnd retries' le',
                   (Advanced2.reqLoop maxR rd raw (retries + 1)
                     (some .connError) cs).calls,
                   (Advanced2.reqLoop maxR rd raw (retries + 1)
                     (some .connError) cs).waits⟩ := by
              rw [← hres]
            have hrec := ih (retries + 1) (some .connError) retries' le'
              _ _ ht
            simp only [List.cons_append, Advanced2.reqLoop, if_neg hg,
              List.append_eq]
            rw [if_pos hcont, hrec, Trace.mk.injEq]
            exact ⟨rfl, by simp only []; omega, hws⟩
          · rw [if_neg hcont, Trace.mk.injEq] at h
            obtain ⟨hres, hn, hws⟩ := h
            have ht : Advanced2.reqLoop maxR rd raw (retries + 1)
                (some .connError) cs
                = ⟨.oracleEnd retries' le',
                   (Advanced2.reqLoop maxR rd raw (retries + 1)
                     (some .connError) cs).calls,
                   (Advanced2.reqLoop maxR rd raw (retries + 1)
                     (some .connError) cs).waits⟩ := by
              rw [← hres]
            have hrec := ih (retries + 1) (some .connError) retries' le'
              _ _ ht
            simp only [List.cons_append, Advanced2.reqLoop, if_neg hg,
              List.append_eq]
            rw [if_neg hcont, hrec, Trace.mk.injEq]
            exact ⟨rfl, by simp only []; omega, hws⟩

/-- A decoded error object with a `"message"` binding passes the
`"message" in error_data` test. -/
theorem messageField_any (fields : List (String × Json)) (v : Json)
    (hm : messageField fields = some v) :
    fields.any (fun f => f.1 == "message") = true := by
  induction fields with
  | nil => simp [messageField] at hm
  | cons kv rest ih =>
      obtain ⟨k, w⟩ := kv
      by_cases hk : k = "message"
      · simp [hk]
      · simp only [messageField, if_neg hk] at hm
        simp [hk, ih hm]

/-- C2 counterexample: `_make_request` (stargazers-advanced.py) does NOT
raise immediately on a fatal 4xx — with responses [404, 200] it retries the
404 like any failure, performs a second network call and returns the 200's
decoded body, whereas the claim predicts an immediate raise after 1 call. -/
theorem C2_counterexample :
    (Advanced.get 3 1 [.ok respNotFound, .ok respOk]).result
        = .value (some (.obj [("data", .str "ok")]))
    ∧ (Advanced.get 3 1 [.ok respNotFound, .ok respOk]).calls = 2
    ∧ (Advanced.get 3 1 [.ok respNotFound, .ok respOk]).calls ≠ 1 :=
  ⟨rfl, rfl, by decide⟩

/-- C2 (amended): `_request` (stargazers-advanced2.py) raises immediately
upon observing a 4xx (≠ 429) response at any reachable position — one final
network call, `GitHubAPIError` carrying that status and the decoded
`"message"` field when the body decodes to an object with one — while
`_make_request` (stargazers-advanced.py) instead treats a 4xx like any
other failure: with retry budget left it sleeps and performs further
network calls. -/
theorem C2_fatal_4xx :
    (∀ (maxRetries retryDelay n : Nat) (pre : List CallResult)
        (r : HttpResponse) (tail : List CallResult) (retries' : Nat)
        (le' : Option Advanced2.LastErr) (ws : List Wait),
        Advanced2.request maxRetries retryDelay false pre
          = ⟨.oracleEnd retries' le', n, ws⟩ →
        400 ≤ r.status → r.status < 500 → r.status ≠ 429 →
        Advanced2.request maxRetries retryDelay false (pre ++ .ok r :: tail)
          = ⟨.raised (Advanced2.fatalError r), n + 1, ws⟩)
    ∧ (∀ (r : HttpResponse) (fields : List (String × Json)) (v : Json),
        r.body = .json (.obj fields) → messageField fields = some v →
        Advanced2.fatalError r = .apiError r.status (.fromServer v))
    ∧ ∀ (maxRetries retries delay : Nat) (r : HttpResponse)
        (tail : List CallResult), retries < maxRetries →
        400 ≤ r.status → r.status < 600 → r.status ≠ 429 →
        (Advanced.mrLoop maxRetries retries delay (.ok r :: tail)).result
            = (Advanced.mrLoop maxRetries (retries + 1) (delay * 2)
                tail).result
        ∧ (Advanced.mrLoop maxRetries retries delay (.ok r :: tail)).calls
            = (Advanced.mrLoop maxRetries (retries + 1) (delay * 2)
                tail).calls + 1 := by
  refine ⟨?_, ?_, ?_⟩
  · intro maxR rd n pre r tail retries' le' ws h h1 h2 h3
    exact reqLoop_fatal_after_prefix maxR rd false r h1 h2 h3 tail pre 0
      none retries' le' n ws h
  · intro r fields v hb hm
    have hany := messageField_any fields v hm
    unfold Advanced2.fatalError Advanced2.fatalMsg
    rw [hb]
    simp only [Advanced2.msgContains, hany, hm, Option.getD_some]
  · intro maxR retries delay r tail hlt h1 h2 h3
    have hg : ¬maxR < retries := by omega
    have hle : ¬maxR ≤ retries := by omega
    simp only [Advanced.mrLoop]
    rw [if_neg hg, if_neg h3, if_pos ⟨h1, h2⟩, if_neg hle]
    exact ⟨rfl, rfl⟩

/-- C2 witness: after one consumed transport failure, a 404 makes
`_request` raise `GitHubAPIError(404, "Not Found")` at call 2 with nothing
after it, while `_make_request` at the same point goes on to a further
call. -/
theorem C2_fatal_4xx_witness :
    (Advanced2.request 3 1 false [.netError]
        = ⟨.oracleEnd 1 (some .connError), 1, [.backoff 1]⟩
      ∧ 400 ≤ respNotFound.status ∧ respNotFound.status < 500
      ∧ respNotFound.status ≠ 429)
    ∧ Advanced2.request 3 1 false ([.netError] ++ .ok respNotFound :: [])
        = ⟨.raised (Advanced2.fatalError respNotFound), 1 + 1, [.backoff 1]⟩
    ∧ Advanced2.fatalError respNotFound
        = .apiError 404 (.fromServer (.str "Not Found"))
    ∧ (Advanced.mrLoop 3 0 1 (.ok respNotFound :: [.ok respOk])).calls
        = (Advanced.mrLoop 3 1 2 [.ok respOk]).calls + 1 :=
  ⟨⟨rfl, by decide, by decide, by decide⟩,
    C2_fatal_4xx.1 3 1 1 [.netError] respNotFound [] 1 (some .connError)
      [.backoff 1] rfl (by decide) (by decide) (by decide),
    C2_fatal_4xx.2.1 respNotFound [("message", .str "Not Found")]
      (.str "Not Found") rfl rfl,
    (C2_fatal_4xx.2.2 3 0 1 respNotFound [.ok respOk] (by decide)
      (by decide) (by decide) (by decide)).2⟩

/-- `_make_request` performs at most `max_retries + 1 - retries` calls from
any loop state: every retry path, including the 429 one, increments the
counted attempt. -/
theorem mrLoop_calls_le (maxR : Nat) :
    ∀ (calls : List CallResult) (retries delay : Nat),
      (Advanced.mrLoop maxR retries delay calls).calls
        ≤ maxR + 1 - retries := by
  intro calls
  induction calls with
  | nil =>
      intro retries delay
      by_cases hg : maxR < retries <;> simp [Advanced.mrLoop, hg]
  | cons c cs ih =>
      intro retries delay
      by_cases hg : maxR < retries
      · rcases c <;> simp [Advanced.mrLoop, hg]
      · rcases c with r | _
        · by_cases h429 : r.status = 429
          · have := ih (retries + 1) (delay * 2)
            simp only [Advanced.mrLoop, if_neg hg, if_pos h429]
            omega
          · by_cases h4xx : 400 ≤ r.status ∧ r.status < 600
            · by_cases hle : maxR ≤ retries
              · simp only [Advanced.mrLoop, if_neg hg, if_neg h429,
                  if_pos h4xx, if_pos hle]
                omega
              · have := ih (retries + 1) (delay * 2)
                simp only [Advanced.mrLoop, if_neg hg, if_neg h429,
                  if_pos h4xx, if_neg hle]
                omega
            · simp only [Advanced.mrLoop, if_neg hg, if_neg h429,
                if_neg h4xx]
              omega
        · by_cases hle : maxR ≤ retries
          · simp only [Advanced.mrLoop, if_neg hg, if_pos hle]
            omega
          · have := ih (retries + 1) (delay * 2)
            simp only [Advanced.mrLoop, if_neg hg, if_neg hle]
            omega

/-- Any number of 429-with-reset responses leaves `_request`'s loop state
completely unchanged: the retry counter is never incremented and no attempt
is counted against the budget. -/
theorem reqLoop_429_replicate (maxR rd : Nat) (raw : Bool)
    (r : HttpResponse) (h429 : r.status = 429)
    (hres : 0 < r.rateLimitReset) :
    ∀ (n retries : Nat) (le : Option Advanced2.LastErr), retries ≤ maxR →
      Advanced2.reqLoop maxR rd raw retries le (List.replicate n (.ok r))
        = ⟨.oracleEnd retries le, n,
           List.replicate n (.untilReset r.rateLimitReset)⟩ := by
  intro n
  induction n with
  | zero =>
      intro retries le h
      simp [Advanced2.reqLoop, List.replicate, Nat.not_lt.mpr h]
  | succ m ih =>
      intro retries le h
      have hg : ¬maxR < retries := by omega
      simp only [List.replicate_succ, Advanced2.reqLoop]
      rw [if_neg hg, if_pos ⟨h429, hres⟩, ih retries le h]

/-- `output.py`'s `_request` retries 429 by unbounded recursive self-call:
for EVERY n, a run of n 429 responses followed by a success performs n+1
calls and returns the success, with a reset-derived wait for each 429. -/
theorem out_429_unbounded (r rOk : HttpResponse) (j : Json)
    (h429 : r.status = 429) (hOkStatus : rOk.status < 400)
    (hOk204 : rOk.status ≠ 204) (hOkBody : rOk.body = .json j)
    (tail : List CallResult) :
    ∀ n : Nat,
      Output.request n (List.replicate n (.ok r) ++ .ok rOk :: tail)
        = ⟨.value (some j), n + 1,
           List.replicate n (.untilReset r.rateLimitReset)⟩ := by
  intro n
  induction n with
  | zero =>
      have h1 : ¬rOk.status = 429 := by omega
      have h2 : ¬(400 ≤ rOk.status ∧ rOk.status < 600) := by omega
      simp only [List.replicate, List.nil_append, Output.request]
      rw [if_neg h1, if_neg h2, if_neg hOk204, hOkBody]
  | succ m ih =>
      simp only [List.replicate_succ, List.cons_append, Output.request]
      rw [if_pos h429]
      simp only [List.append_eq] at ih ⊢
      rw [ih]

/-- C5 counterexample: ten straight 429-with-reset responses are all
retried by `_request` (stargazers-advanced2.py) — 10 calls, more than the
max_retries+1 = 4 cap the claim asserts — while the attempt counter is
still 0 and the loop is still running. -/
theorem C5_counterexample :
    (Advanced2.request 3 1 false
        (List.replicate 10 (.ok respRateLimited))).result
      = .oracleEnd 0 none
    ∧ (Advanced2.request 3 1 false
        (List.replicate 10 (.ok respRateLimited))).calls = 10
    ∧ 3 + 1 < 10 :=
  ⟨rfl, rfl, by decide⟩

/-- C5 (amended): a 429 is always retried, but the accounting differs per
client.  `_make_request` (stargazers-advanced.py) sleeps the `Retry-After`
hint when present, else the current exponential-backoff delay, increments
the attempt counter, and its total calls never exceed max_retries+1.
`_request` (stargazers-advanced2.py) retries a 429 with a positive
`X-RateLimit-Reset` after the server-derived wait WITHOUT incrementing the
counter and with no cap (arbitrarily many such retries leave the state
unchanged); only a 429 lacking the hint goes through the counted backoff
path.  `output.py`'s `_request` retries 429 by recursive self-call with a
server-derived wait and no counter or cap at all. -/
theorem C5_rate_limit :
    (∀ (maxRetries retries delay : Nat) (r : HttpResponse)
        (tail : List CallResult), retries ≤ maxRetries → r.status = 429 →
        Advanced.mrLoop maxRetries retries delay (.ok r :: tail)
          = ⟨(Advanced.mrLoop maxRetries (retries + 1) (delay * 2)
                tail).result,
             (Advanced.mrLoop maxRetries (retries + 1) (delay * 2)
                tail).calls + 1,
             (match r.retryAfter with
              | some k => Wait.hinted k
              | none => Wait.backoff delay)
               :: (Advanced.mrLoop maxRetries (retries + 1) (delay * 2)
                tail).waits⟩)
    ∧ (∀ (maxRetries retryDelay : Nat) (calls : List CallResult),
        (Advanced.mrLoop maxRetries 0 retryDelay calls).calls
          ≤ maxRetries + 1)
    ∧ (∀ (maxRetries retryDelay n : Nat) (r : HttpResponse),
        r.status = 429 → 0 < r.rateLimitReset →
        Advanced2.request maxRetries retryDelay false
            (List.replicate n (.ok r))
          = ⟨.oracleEnd 0 none, n,
             List.replicate n (.untilReset r.rateLimitReset)⟩)
    ∧ ∀ (n : Nat) (r rOk : HttpResponse) (j : Json)
        (tail : List CallResult),
        r.status = 429 → rOk.status < 400 → rOk.status ≠ 204 →
        rOk.body = .json j →
        Output.request n (List.replicate n (.ok r) ++ .ok rOk :: tail)
          = ⟨.value (some j), n + 1,
             List.replicate n (.untilReset r.rateLimitReset)⟩ := by
  refine ⟨?_, ?_, ?_, ?_⟩
  · intro maxR retries delay r tail hret h429
    have hg : ¬maxR < retries := by omega
    simp only [Advanced.mrLoop]
    rw [if_neg hg, if_pos h429]
  · intro maxR rd calls
    have := mrLoop_calls_le maxR calls 0 rd
    omega
  · intro maxR rd n r h429 hres
    exact reqLoop_429_replicate maxR rd false r h429 hres n 0 none
      (Nat.zero_le maxR)
  · intro n r rOk j tail h429 h1 h2 h3
    exact out_429_unbounded r rOk j h429 h1 h2 h3 tail n

/-- C5 witness: concrete instances of each conjunct — a hinted 429 retry
for `_make_request`, its call cap, the uncounted 429-with-reset loop of
`_request`, and output.py's unbounded recursion. -/
theorem C5_rate_limit_witness :
    (0 ≤ 3 ∧ respRateLimitedHint.status = 429
      ∧ respRateLimited.status = 429 ∧ 0 < respRateLimited.rateLimitReset
      ∧ respOk.status < 400 ∧ respOk.status ≠ 204
      ∧ respOk.body = .json (.obj [("data", .str "ok")]))
    ∧ Advanced.mrLoop 3 0 1 (.ok respRateLimitedHint :: [])
        = ⟨(Advanced.mrLoop 3 1 2 []).result,
           (Advanced.mrLoop 3 1 2 []).calls + 1,
           .hinted 7 :: (Advanced.mrLoop 3 1 2 []).waits⟩
    ∧ (Advanced.mrLoop 3 0 1
        (List.replicate 9 (.ok respServerErr))).calls ≤ 3 + 1
    ∧ Advanced2.request 3 1 false (List.replicate 10 (.ok respRateLimited))
        = ⟨.oracleEnd 0 none, 10,
           List.replicate 10 (.untilReset 1000)⟩
    ∧ Output.request 2
        (List.replicate 2 (.ok respRateLimited) ++ .ok respOk :: [])
        = ⟨.value (some (.obj [("data", .str "ok")])), 2 + 1,
           List.replicate 2 (.untilReset 1000)⟩ :=
  ⟨⟨by omega, rfl, rfl, by decide, by decide, by decide, rfl⟩,
    C5_rate_limit.1 3 0 1 respRateLimitedHint [] (by omega) rfl,
    C5_rate_limit.2.1 3 1 (List.replicate 9 (.ok respServerErr)),
    C5_rate_limit.2.2.1 3 1 10 respRateLimited rfl (by decide),
    C5_rate_limit.2.2.2 2 respRateLimited respOk (.obj [("data", .str "ok")])
      [] rfl (by decide) (by decide) rfl⟩

/-- At any reachable loop state, `_request` returns from a decodable
success response in one network call with no sleeps. -/
theorem reqLoop_success_head (maxR rd retries : Nat)
    (le : Option Advanced2.LastErr) (r : HttpResponse)
    (tail : List CallResult) (hret : retries ≤ maxR) (h : r.status < 400)
    (hd : decodableBody r.body = true) :
    ∃ v, Advanced2.reqLoop maxR rd false retries le (.ok r :: tail)
        = ⟨.success v, 1, []⟩ := by
  have hg : ¬maxR < retries := by omega
  have h429 : ¬(r.status = 429 ∧ 0 < r.rateLimitReset) := by
    rintro ⟨hh, -⟩; omega
  have h4xx : ¬(400 ≤ r.status ∧ r.status < 600) := by omega
  simp only [Advanced2.reqLoop]
  rw [if_neg hg, if_neg h429, if_neg h4xx, if_neg (by decide : ¬false = true)]
  rcases hb : r.body with _ | j | sraw
  · exact ⟨.nothing, rfl⟩
  · exact ⟨.json j, rfl⟩
  · rw [hb] at hd
    simp [decodableBody] at hd

/-- C4 (amended): every membership-check wrapper returns `false` on 404
without raising (`check_starred` only after `_make_request` exhausts its
retries on repeated 404s) and `true` on 204; on 200, `check_starred`
(advanced), `check_if_starred` (advanced2) and `is_repository_starred`
(class) return `true`, but Chapter 2's `check_if_starred` returns `false`
— it reports `true` only for exactly 204 — and Chapter 4's module-level
`check_if_starred` falls through and returns Python `None`, not `true`. -/
theorem C4_membership_checks :
    (∀ r : HttpResponse, r.status = 404 →
        Ch2.check_if_starred r = .ok false)
    ∧ (∀ r : HttpResponse, r.status = 204 →
        Ch2.check_if_starred r = .ok true)
    ∧ (∀ r : HttpResponse, r.status = 200 →
        Ch2.check_if_starred r = .ok false)
    ∧ (∀ r : HttpResponse, r.status = 404 →
        Ch4.check_if_starred r = .ok (some false))
    ∧ (∀ r : HttpResponse, r.status = 204 →
        Ch4.check_if_starred r = .ok (some true))
    ∧ (∀ r : HttpResponse, r.status = 200 →
        Ch4.check_if_starred r = .ok none)
    ∧ (∀ r : HttpResponse, r.status = 404 →
        SClass.is_repository_starred r = .ok false)
    ∧ (∀ r : HttpResponse, r.status < 400 →
        SClass.is_repository_starred r = .ok true)
    ∧ (∀ (maxRetries retryDelay : Nat) (r : HttpResponse)
        (tail : List CallResult), r.status = 404 → r.body = .empty →
        (Advanced2.check_if_starred maxRetries retryDelay
            (.ok r :: tail)).result = .value false
        ∧ (Advanced2.check_if_starred maxRetries retryDelay
            (.ok r :: tail)).calls = 1)
    ∧ (∀ (maxRetries retryDelay : Nat) (r : HttpResponse)
        (tail : List CallResult), r.status < 400 →
        decodableBody r.body = true →
        (Advanced2.check_if_starred maxRetries retryDelay
            (.ok r :: tail)).result = .value true
        ∧ (Advanced2.check_if_starred maxRetries retryDelay
            (.ok r :: tail)).calls = 1)
    ∧ ((Advanced.check_starred 3 1
          (List.replicate 4 (.ok respNotFoundEmpty))).result = .value false
        ∧ (Advanced.check_starred 3 1
            (List.replicate 4 (.ok respNotFoundEmpty))).calls = 4)
    ∧ ∀ (maxRetries retryDelay : Nat) (r : HttpResponse)
        (tail : List CallResult), r.status < 400 →
        decodableBody r.body = true →
        (Advanced.check_starred maxRetries retryDelay
            (.ok r :: tail)).result = .value true
        ∧ (Advanced.check_starred maxRetries retryDelay
            (.ok r :: tail)).calls = 1 := by
  refine ⟨?_, ?_, ?_, ?_, ?_, ?_, ?_, ?_, ?_, ?_, ⟨rfl, rfl⟩, ?_⟩
  · intro r h; simp [Ch2.check_if_starred, h]
  · intro r h; simp [Ch2.check_if_starred, h]
  · intro r h; simp [Ch2.check_if_starred, h]
  · intro r h; simp [Ch4.check_if_starred, h]
  · intro r h; simp [Ch4.check_if_starred, h]
  · intro r h; simp [Ch4.check_if_starred, h]
  · intro r h; simp [SClass.is_repository_starred, h]
  · intro r h
    have hh : ¬(400 ≤ r.status ∧ r.status < 600) := by omega
    simp [SClass.is_repository_starred, hh]
  · intro maxR rd r tail hst hbody
    have hh := reqLoop_fatal_head maxR rd false 0 none r tail
      (Nat.zero_le _) (by omega) (by omega) (by omega)
    have hfe : Advanced2.fatalError r = .apiError r.status .generic := by
      unfold Advanced2.fatalError Advanced2.fatalMsg
      rw [hbody]
    constructor <;>
      simp [Advanced2.check_if_starred, Advanced2.request, hh, hfe, hst]
  · intro maxR rd r tail hst hdec
    obtain ⟨v, hv⟩ := reqLoop_success_head maxR rd 0 none r tail
      (Nat.zero_le _) hst hdec
    constructor <;>
      simp [Advanced2.check_if_starred, Advanced2.request, hv]
  · intro maxR rd r tail hst hdec
    obtain ⟨h1, h2⟩ := mrLoop_success_after_fails maxR r hst [] 0 rd tail
      (by simp) (by simp)
    simp only [List.nil_append] at h1 h2
    have hv : ∃ v, Advanced.decodeContent r = .ok v := by
      rcases hb : r.body with _ | j | sraw
      · exact ⟨none, by unfold Advanced.decodeContent; rw [hb]⟩
      · exact ⟨some j, by unfold Advanced.decodeContent; rw [hb]⟩
      · rw [hb] at hdec
        simp [decodableBody] at hdec
    obtain ⟨v, hv⟩ := hv
    constructor <;>
      simp [Advanced.check_starred, Advanced.get, make_request_get_eq,
        h1, h2, hv]

/-- C4 witness: concrete 404 / 204 / 200 responses through each wrapper. -/
theorem C4_membership_checks_witness :
    (respNotFoundEmpty.status = 404 ∧ respNoContent.status = 204
      ∧ respOk.status = 200 ∧ respOk.status < 400
      ∧ decodableBody respOk.body = true
      ∧ respNotFoundEmpty.body = .empty)
    ∧ Ch2.check_if_starred respNotFoundEmpty = .ok false
    ∧ Ch2.check_if_starred respNoContent = .ok true
    ∧ Ch4.check_if_starred respNotFoundEmpty = .ok (some false)
    ∧ Ch4.check_if_starred respNoContent = .ok (some true)
    ∧ Ch4.check_if_starred respOk = .ok none
    ∧ SClass.is_repository_starred respNotFoundEmpty = .ok false
    ∧ SClass.is_repository_starred respOk = .ok true
    ∧ (Advanced2.check_if_starred 3 1
        (.ok respNotFoundEmpty :: [])).result = .value false
    ∧ (Advanced2.check_if_starred 3 1 (.ok respOk :: [])).result
        = .value true
    ∧ (Advanced.check_starred 3 1 (.ok respOk :: [])).result
        = .value true :=
  ⟨⟨rfl, rfl, rfl, by decide, rfl, rfl⟩,
    C4_membership_checks.1 respNotFoundEmpty rfl,
    C4_membership_checks.2.1 respNoContent rfl,
    C4_membership_checks.2.2.2.1 respNotFoundEmpty rfl,
    C4_membership_checks.2.2.2.2.1 respNoContent rfl,
    C4_membership_checks.2.2.2.2.2.1 respOk rfl,
    C4_membership_checks.2.2.2.2.2.2.1 respNotFoundEmpty rfl,
    C4_membership_checks.2.2.2.2.2.2.2.1 respOk (by decide),
    (C4_membership_checks.2.2.2.2.2.2.2.2.1 3 1 respNotFoundEmpty []
      rfl rfl).1,
    (C4_membership_checks.2.2.2.2.2.2.2.2.2.1 3 1 respOk [] (by decide)
      rfl).1,
    (C4_membership_checks.2.2.2.2.2.2.2.2.2.2.2 3 1 respOk [] (by decide)
      rfl).1⟩
